import Mathlib

/-!
Verification of the osmio library core (`src/lib.rs`, `src/obj_types/string_types.rs`)
against its natural-language specification.

The Rust code is shallowly embedded: machine integers `i64`/`u32` become `Int`/`Nat`
(no arithmetic that could overflow is performed on them by the embedded functions),
`Option<T>` becomes `Option`, `Result<T, E>` becomes `Except E T`,
`HashMap<String, String>` becomes an association list with unique keys,
and `Vec<T>` becomes `List`.

The helper functions `utils::epoch_to_iso` and `utils::iso_to_epoch` live in a module
that is not part of the given sources; they are modelled from the spec (see the
`SpecModel` namespace).
-/

namespace Osmio

/-- OSM id of object (`pub type ObjId = i64`). -/
abbrev ObjId := Int

/-- Latitude (`pub type Lat = f32`); carried opaquely, never computed with. -/
abbrev Lat := Float

/-- Longitude (`pub type Lon = f32`); carried opaquely, never computed with. -/
abbrev Lon := Float

/-- `pub enum OSMObjectType { Node, Way, Relation }` (lib.rs:185-190). -/
inductive OSMObjectType : Type
  | Node : OSMObjectType
  | Way : OSMObjectType
  | Relation : OSMObjectType
deriving DecidableEq, Repr

/-- The `Debug` impl for `OSMObjectType` (lib.rs:192-200): the single-character code. -/
def OSMObjectType.debug_str : OSMObjectType → String
  | .Node => "n"
  | .Way => "w"
  | .Relation => "r"

/-- The `Display` impl for `OSMObjectType` (lib.rs:202-210): the full-word name. -/
def OSMObjectType.display_str : OSMObjectType → String
  | .Node => "node"
  | .Way => "way"
  | .Relation => "relation"

/-- `impl TryFrom<char> for OSMObjectType` (lib.rs:212-223). -/
def OSMObjectType.try_from_char (c : Char) : Except String OSMObjectType :=
  if c = 'n' then .ok .Node
  else if c = 'w' then .ok .Way
  else if c = 'r' then .ok .Relation
  else .error ("Cannot convert " ++ String.singleton c ++ " to OSMObjectType")

/-- `impl FromStr for OSMObjectType` (lib.rs:225-236). -/
def OSMObjectType.from_str (s : String) : Except String OSMObjectType :=
  if s = "n" ∨ s = "node" then .ok .Node
  else if s = "w" ∨ s = "way" then .ok .Way
  else if s = "r" ∨ s = "relation" ∨ s = "rel" then .ok .Relation
  else .error ("Cannot convert " ++ s ++ " to OSMObjectType")

namespace SpecModel

/-- Gregorian leap-year test (proleptic), as used by any ISO-8601 calendar conversion. -/
def isLeap (y : Int) : Bool :=
  y % 4 == 0 && (y % 100 != 0 || y % 400 == 0)

/-- Number of days in year `y`. -/
def daysInYear (y : Int) : Int :=
  if isLeap y then 366 else 365

/-- The month lengths of a year, January first. -/
def monthLengths (leap : Bool) : List Int :=
  [31, if leap then 29 else 28, 31, 30, 31, 30, 31, 31, 30, 31, 30, 31]

/-- Days from 1970-01-01 to the start of year `1970 + n`. -/
def daysUpFrom1970 : Nat → Int
  | 0 => 0
  | n + 1 => daysUpFrom1970 n + daysInYear (1970 + n)

/-- Days (non-positive) from 1970-01-01 to the start of year `1970 - n`. -/
def daysDownFrom1970 : Nat → Int
  | 0 => 0
  | n + 1 => daysDownFrom1970 n - daysInYear (1969 - n)

/-- Days from 1970-01-01 to the start of year `y` (negative for years before 1970). -/
def yearStart (y : Int) : Int :=
  if 1970 ≤ y then daysUpFrom1970 (y - 1970).toNat
  else daysDownFrom1970 (1970 - y).toNat

/-- Walk from year `y` adjusting a day offset `d` until it falls inside a year;
returns the year and the 0-based day of that year. `fuel` bounds the walk. -/
def yearOf : Nat → Int → Int → Int × Int
  | 0, y, d => (y, d)
  | fuel + 1, y, d =>
    if d < 0 then yearOf fuel (y - 1) (d + daysInYear (y - 1))
    else if daysInYear y ≤ d then yearOf fuel (y + 1) (d - daysInYear y)
    else (y, d)

/-- Split a 0-based day-of-year into a 0-based month index and 0-based day-of-month,
given the list of month lengths. -/
def splitMonth : List Int → Int → Nat × Int
  | [], d => (0, d)
  | len :: rest, d =>
    if d < len then (0, d)
    else ((splitMonth rest (d - len)).1 + 1, (splitMonth rest (d - len)).2)

/-- The decimal digit character for `0 ≤ n < 10`. -/
def digitChar (n : Int) : Char := Char.ofNat (48 + n.toNat)

/-- The numeric value of a decimal digit character. -/
def digitVal (c : Char) : Int := (c.toNat : Int) - 48

/-- Whether `c` is a decimal digit. -/
def isDigit (c : Char) : Bool := 48 ≤ c.toNat && c.toNat ≤ 57

/-- Two-digit zero-padded decimal rendering of `0 ≤ n < 100`. -/
def pad2 (n : Int) : List Char := [digitChar (n / 10), digitChar (n % 10)]

/-- Four-digit zero-padded decimal rendering of `0 ≤ n < 10000`. -/
def pad4 (n : Int) : List Char :=
  [digitChar (n / 1000), digitChar ((n / 100) % 10), digitChar ((n / 10) % 10),
    digitChar (n % 10)]

/-- Value of two decimal digit characters. -/
def parse2 (c1 c0 : Char) : Int := digitVal c1 * 10 + digitVal c0

/-- Value of four decimal digit characters. -/
def parse4 (c3 c2 c1 c0 : Char) : Int :=
  digitVal c3 * 1000 + digitVal c2 * 100 + digitVal c1 * 10 + digitVal c0

/-- Whether both characters are decimal digits. -/
def digits2 (c1 c0 : Char) : Bool := isDigit c1 && isDigit c0

/-- Render a year, a (0-based month index, 0-based day-of-month) pair, and a
second-of-day as the UTC ISO-8601 string `YYYY-MM-DDTHH:MM:SSZ`. -/
def formatDate (y : Int) (md : Nat × Int) (sod : Int) : String :=
  String.mk
    (pad4 y ++ '-' :: pad2 ((md.1 : Int) + 1) ++ '-' :: pad2 (md.2 + 1) ++
      'T' :: pad2 (sod / 3600) ++ ':' :: pad2 ((sod / 60) % 60) ++ ':' :: pad2 (sod % 60) ++
      ['Z'])

/-- Modelled from the spec: `utils::epoch_to_iso` is not among the given sources
(it lives in the out-of-scope `utils` module, "timestamp string/epoch conversion
helpers").  Per the spec the ISO form is "an ISO-8601 string form"; this model
formats epoch seconds as the UTC ISO-8601 string `YYYY-MM-DDTHH:MM:SSZ`
(proleptic Gregorian calendar). -/
def epoch_to_iso (e : Int) : String :=
  formatDate (yearOf 200 1970 (e / 86400)).1
    (splitMonth (monthLengths (isLeap (yearOf 200 1970 (e / 86400)).1))
      (yearOf 200 1970 (e / 86400)).2)
    (e % 86400)

/-- Epoch day number of the civil date `y-m-dom` (`m`, `dom` 1-based). -/
def days_from_civil (y m dom : Int) : Int :=
  yearStart y + ((monthLengths (isLeap y)).take (m - 1).toNat).sum + (dom - 1)

/-- Parse the timezone designator at the end of an ISO-8601 timestamp:
`Z` or `±HH:MM`, returning the offset east of UTC in seconds. -/
def parse_offset : List Char → Option Int
  | ['Z'] => some 0
  | [sg, h1, h0, ':', m1, m0] =>
    if digits2 h1 h0 && digits2 m1 m0 then
      if sg = '+' then some (parse2 h1 h0 * 3600 + parse2 m1 m0 * 60)
      else if sg = '-' then some (-(parse2 h1 h0 * 3600 + parse2 m1 m0 * 60))
      else none
    else none
  | _ => none

/-- Modelled from the spec: `utils::iso_to_epoch` is not among the given sources.
Parses an ISO-8601 timestamp `YYYY-MM-DDTHH:MM:SS` followed by `Z` or `±HH:MM`
into epoch seconds; `none` on malformed input.  (Calendar range validation of the
parsed fields is omitted; it is irrelevant to the properties proved here.) -/
def iso_to_epoch_opt (str : String) : Option Int :=
  match str.data with
  | y3 :: y2 :: y1 :: y0 :: '-' :: m1 :: m0 :: '-' :: d1 :: d0 :: 'T' ::
      h1 :: h0 :: ':' :: mi1 :: mi0 :: ':' :: s1 :: s0 :: rest =>
    if digits2 y3 y2 && digits2 y1 y0 && digits2 m1 m0 && digits2 d1 d0 &&
        digits2 h1 h0 && digits2 mi1 mi0 && digits2 s1 s0 then
      match parse_offset rest with
      | some off =>
        some (days_from_civil (parse4 y3 y2 y1 y0) (parse2 m1 m0) (parse2 d1 d0) * 86400 +
          parse2 h1 h0 * 3600 + parse2 mi1 mi0 * 60 + parse2 s1 s0 - off)
      | none => none
    else none
  | _ => none

/-- Total version of `iso_to_epoch_opt` (the Rust helper returns a plain integer). -/
def iso_to_epoch (s : String) : Int := (iso_to_epoch_opt s).getD 0

end SpecModel

/-- Two's-complement truncation of an `i64` value to `i32` (the `as i32` cast). -/
def wrap_i32 (t : Int) : Int := (t + 2 ^ 31) % 2 ^ 32 - 2 ^ 31

/-- `pub enum TimestampFormat { ISOString(String), EpochNunber(i64) }` (lib.rs:44-48). -/
inductive TimestampFormat : Type
  | ISOString (s : String)
  | EpochNunber (t : Int)
deriving DecidableEq, Repr

/-- `TimestampFormat::to_iso_string` (lib.rs:51-56); note the `*t as i32` cast. -/
def TimestampFormat.to_iso_string : TimestampFormat → String
  | .ISOString s => s
  | .EpochNunber t => SpecModel.epoch_to_iso (wrap_i32 t)

/-- `TimestampFormat::to_epoch_number` (lib.rs:58-63). -/
def TimestampFormat.to_epoch_number : TimestampFormat → Int
  | .ISOString s => SpecModel.iso_to_epoch s
  | .EpochNunber t => t

/-- Lexicographic comparison of two character lists (the `Ord` of Rust `String`;
UTF-8 byte order coincides with code-point order). -/
def cmpChars : List Char → List Char → Ordering
  | [], [] => .eq
  | [], _ :: _ => .lt
  | _ :: _, [] => .gt
  | a :: as_, b :: bs =>
    if a.toNat < b.toNat then .lt
    else if b.toNat < a.toNat then .gt
    else cmpChars as_ bs

/-- Comparison of two strings, as Rust `String::cmp`. -/
def cmpString (a b : String) : Ordering := cmpChars a.data b.data

/-- Comparison of two integers, as Rust `i64::cmp`. -/
def cmpInt (a b : Int) : Ordering :=
  if a < b then .lt else if a = b then .eq else .gt

/-- `impl PartialOrd for TimestampFormat` (lib.rs:92-100): two `ISOString`s compare
as strings, two `EpochNunber`s as integers, mixed pairs by epoch number. -/
def TimestampFormat.partial_cmp : TimestampFormat → TimestampFormat → Option Ordering
  | .ISOString a, .ISOString b => some (cmpString a b)
  | .EpochNunber a, .EpochNunber b => some (cmpInt a b)
  | a, b => some (cmpInt a.to_epoch_number b.to_epoch_number)

/-- `impl PartialEq for TimestampFormat` (lib.rs:101-109): two `ISOString`s compare
as strings, two `EpochNunber`s as integers, mixed pairs by epoch number. -/
def TimestampFormat.eq : TimestampFormat → TimestampFormat → Bool
  | .ISOString a, .ISOString b => a = b
  | .EpochNunber a, .EpochNunber b => a = b
  | a, b => a.to_epoch_number = b.to_epoch_number

/-- Shallow model of `HashMap<String, String>`: an association list whose keys are
unique.  `HashMap` iteration order is unspecified, so any placement of the bindings
is a faithful representation of the map's contents. -/
abbrev Tags := List (String × String)

/-- `HashMap::get` (used by `tag`, string_types.rs:332-334). -/
def Tags.get : Tags → String → Option String
  | [], _ => none
  | (k', v) :: rest, k => if k' = k then some v else Tags.get rest k

/-- `HashMap::insert` (used by `set_tag`, string_types.rs:336-338): replaces the
value bound to an existing key, otherwise adds the new binding. -/
def Tags.insert (m : Tags) (k v : String) : Tags :=
  if (Tags.get m k).isSome then
    m.map (fun p => if p.1 = k then (p.1, v) else p)
  else m ++ [(k, v)]

/-- `HashMap::remove` (used by `unset_tag`, string_types.rs:340-342). -/
def Tags.remove (m : Tags) (k : String) : Tags :=
  m.filter (fun p => p.1 ≠ k)

/-- The `HashMap` invariant: no key occurs twice. -/
def Tags.WF (m : Tags) : Prop := (m.map Prod.fst).Nodup

/-- `pub struct StringNode` (string_types.rs:23-47). -/
structure StringNode : Type where
  _id : ObjId
  _version : Option Nat
  _deleted : Bool
  _changeset_id : Option Nat
  _timestamp : Option TimestampFormat
  _uid : Option Nat
  _user : Option String
  _tags : Tags
  _lat_lon : Option (Lat × Lon)

/-- `pub struct StringWay` (string_types.rs:49-71). -/
structure StringWay : Type where
  _id : ObjId
  _version : Option Nat
  _deleted : Bool
  _changeset_id : Option Nat
  _timestamp : Option TimestampFormat
  _uid : Option Nat
  _user : Option String
  _tags : Tags
  _nodes : List ObjId

/-- A relation member: `(OSMObjectType, ObjId, String)`. -/
abbrev Member := OSMObjectType × ObjId × String

/-- `pub struct StringRelation` (string_types.rs:73-95). -/
structure StringRelation : Type where
  _id : ObjId
  _version : Option Nat
  _deleted : Bool
  _changeset_id : Option Nat
  _timestamp : Option TimestampFormat
  _uid : Option Nat
  _user : Option String
  _tags : Tags
  _members : List Member

namespace StringNode

/-- `StringNodeBuilder::default().id(id).build()`: construction from an id alone;
every `#[builder(default = ...)]` field takes its declared default
(string_types.rs:23-47). -/
def build_with_id (id : ObjId) : StringNode :=
  { _id := id, _version := none, _deleted := false, _changeset_id := none,
    _timestamp := none, _uid := none, _user := none, _tags := [], _lat_lon := none }

def id (n : StringNode) : ObjId := n._id

def version (n : StringNode) : Option Nat := n._version

def deleted (n : StringNode) : Bool := n._deleted

def changeset_id (n : StringNode) : Option Nat := n._changeset_id

def timestamp (n : StringNode) : Option TimestampFormat := n._timestamp

def uid (n : StringNode) : Option Nat := n._uid

def user (n : StringNode) : Option String := n._user

def set_id (n : StringNode) (val : ObjId) : StringNode := { n with _id := val }

def set_version (n : StringNode) (val : Option Nat) : StringNode := { n with _version := val }

def set_deleted (n : StringNode) (val : Bool) : StringNode := { n with _deleted := val }

def set_changeset_id (n : StringNode) (val : Option Nat) : StringNode :=
  { n with _changeset_id := val }

def set_timestamp (n : StringNode) (val : Option TimestampFormat) : StringNode :=
  { n with _timestamp := val }

def set_uid (n : StringNode) (val : Option Nat) : StringNode := { n with _uid := val }

def set_user (n : StringNode) (val : Option String) : StringNode := { n with _user := val }

/-- `tags()` yields the bindings; `num_tags()` is `self.tags().count()` (lib.rs:133-135). -/
def tags (n : StringNode) : Tags := n._tags

def num_tags (n : StringNode) : Nat := n.tags.length

def tag (n : StringNode) (key : String) : Option String := Tags.get n._tags key

def set_tag (n : StringNode) (key value : String) : StringNode :=
  { n with _tags := Tags.insert n._tags key value }

def unset_tag (n : StringNode) (key : String) : StringNode :=
  { n with _tags := Tags.remove n._tags key }

def lat_lon (n : StringNode) : Option (Lat × Lon) := n._lat_lon

def set_lat_lon (n : StringNode) (loc : Option (Lat × Lon)) : StringNode :=
  { n with _lat_lon := loc }

/-- The `OSMObjBase::strip_metadata` default method (lib.rs:149-153):
`set_uid(None); set_user(None); set_changeset_id(None)`. -/
def strip_metadata (n : StringNode) : StringNode :=
  ((n.set_uid none).set_user none).set_changeset_id none

end StringNode

namespace StringWay

/-- `StringWayBuilder::default().id(id).build()` (string_types.rs:49-71). -/
def build_with_id (id : ObjId) : StringWay :=
  { _id := id, _version := none, _deleted := false, _changeset_id := none,
    _timestamp := none, _uid := none, _user := none, _tags := [], _nodes := [] }

def id (w : StringWay) : ObjId := w._id

def version (w : StringWay) : Option Nat := w._version

def deleted (w : StringWay) : Bool := w._deleted

def changeset_id (w : StringWay) : Option Nat := w._changeset_id

def timestamp (w : StringWay) : Option TimestampFormat := w._timestamp

def uid (w : StringWay) : Option Nat := w._uid

def user (w : StringWay) : Option String := w._user

def set_id (w : StringWay) (val : ObjId) : StringWay := { w with _id := val }

def set_version (w : StringWay) (val : Option Nat) : StringWay := { w with _version := val }

def set_deleted (w : StringWay) (val : Bool) : StringWay := { w with _deleted := val }

def set_changeset_id (w : StringWay) (val : Option Nat) : StringWay :=
  { w with _changeset_id := val }

def set_timestamp (w : StringWay) (val : Option TimestampFormat) : StringWay :=
  { w with _timestamp := val }

def set_uid (w : StringWay) (val : Option Nat) : StringWay := { w with _uid := val }

def set_user (w : StringWay) (val : Option String) : StringWay := { w with _user := val }

def tags (w : StringWay) : Tags := w._tags

def num_tags (w : StringWay) : Nat := w.tags.length

def tag (w : StringWay) (key : String) : Option String := Tags.get w._tags key

def set_tag (w : StringWay) (key value : String) : StringWay :=
  { w with _tags := Tags.insert w._tags key value }

def unset_tag (w : StringWay) (key : String) : StringWay :=
  { w with _tags := Tags.remove w._tags key }

/-- `Way::num_nodes` (string_types.rs:421-423). -/
def num_nodes (w : StringWay) : Nat := w._nodes.length

/-- `Way::nodes` (string_types.rs:424-426). -/
def nodes (w : StringWay) : List ObjId := w._nodes

/-- `Way::node`: `self._nodes.get(idx).cloned()` (string_types.rs:427-429). -/
def node (w : StringWay) (idx : Nat) : Option ObjId := w._nodes[idx]?

/-- `Way::set_nodes`: `self._nodes.truncate(0); self._nodes.extend(...)`
(string_types.rs:430-433). -/
def set_nodes (w : StringWay) (ns : List ObjId) : StringWay :=
  { w with _nodes := w._nodes.take 0 ++ ns }

/-- The `OSMObjBase::strip_metadata` default method (lib.rs:149-153). -/
def strip_metadata (w : StringWay) : StringWay :=
  ((w.set_uid none).set_user none).set_changeset_id none

end StringWay

namespace StringRelation

/-- `StringRelationBuilder::default().id(id).build()` (string_types.rs:73-95). -/
def build_with_id (id : ObjId) : StringRelation :=
  { _id := id, _version := none, _deleted := false, _changeset_id := none,
    _timestamp := none, _uid := none, _user := none, _tags := [], _members := [] }

def id (r : StringRelation) : ObjId := r._id

def version (r : StringRelation) : Option Nat := r._version

def deleted (r : StringRelation) : Bool := r._deleted

def changeset_id (r : StringRelation) : Option Nat := r._changeset_id

def timestamp (r : StringRelation) : Option TimestampFormat := r._timestamp

def uid (r : StringRelation) : Option Nat := r._uid

def user (r : StringRelation) : Option String := r._user

def set_id (r : StringRelation) (val : ObjId) : StringRelation := { r with _id := val }

def set_version (r : StringRelation) (val : Option Nat) : StringRelation :=
  { r with _version := val }

def set_deleted (r : StringRelation) (val : Bool) : StringRelation := { r with _deleted := val }

def set_changeset_id (r : StringRelation) (val : Option Nat) : StringRelation :=
  { r with _changeset_id := val }

def set_timestamp (r : StringRelation) (val : Option TimestampFormat) : StringRelation :=
  { r with _timestamp := val }

def set_uid (r : StringRelation) (val : Option Nat) : StringRelation := { r with _uid := val }

def set_user (r : StringRelation) (val : Option String) : StringRelation :=
  { r with _user := val }

def tags (r : StringRelation) : Tags := r._tags

def num_tags (r : StringRelation) : Nat := r.tags.length

def tag (r : StringRelation) (key : String) : Option String := Tags.get r._tags key

def set_tag (r : StringRelation) (key value : String) : StringRelation :=
  { r with _tags := Tags.insert r._tags key value }

def unset_tag (r : StringRelation) (key : String) : StringRelation :=
  { r with _tags := Tags.remove r._tags key }

/-- `Relation::members` (string_types.rs:502-506). -/
def members (r : StringRelation) : List Member := r._members

/-- `Relation::set_members`: `self._members.truncate(0); self._members.extend(...)`
(string_types.rs:508-515). -/
def set_members (r : StringRelation) (ms : List Member) : StringRelation :=
  { r with _members := r._members.take 0 ++ ms }

/-- The `OSMObjBase::strip_metadata` default method (lib.rs:149-153). -/
def strip_metadata (r : StringRelation) : StringRelation :=
  ((r.set_uid none).set_user none).set_changeset_id none

end StringRelation

/-- `pub enum StringOSMObj { Node(StringNode), Way(StringWay), Relation(StringRelation) }`
(string_types.rs:97-102). -/
inductive StringOSMObj : Type
  | Node (n : StringNode)
  | Way (w : StringWay)
  | Relation (r : StringRelation)

namespace StringOSMObj

/-- `OSMObj::object_type` for `StringOSMObj` (string_types.rs:199-205). -/
def object_type : StringOSMObj → OSMObjectType
  | .Node _ => .Node
  | .Way _ => .Way
  | .Relation _ => .Relation

/-- `OSMObj::into_node` (string_types.rs:207-213). -/
def into_node : StringOSMObj → Option StringNode
  | .Node n => some n
  | _ => none

/-- `OSMObj::into_way` (string_types.rs:215-221). -/
def into_way : StringOSMObj → Option StringWay
  | .Way w => some w
  | _ => none

/-- `OSMObj::into_relation` (string_types.rs:223-229). -/
def into_relation : StringOSMObj → Option StringRelation
  | .Relation r => some r
  | _ => none

/-- `OSMObj::as_node` (string_types.rs:231-237); the shared borrow becomes a value. -/
def as_node : StringOSMObj → Option StringNode
  | .Node n => some n
  | _ => none

/-- `OSMObj::as_way` (string_types.rs:239-245). -/
def as_way : StringOSMObj → Option StringWay
  | .Way w => some w
  | _ => none

/-- `OSMObj::as_relation` (string_types.rs:247-253). -/
def as_relation : StringOSMObj → Option StringRelation
  | .Relation r => some r
  | _ => none

/-- `OSMObj::as_node_mut` (string_types.rs:255-261); the mutable borrow becomes a value. -/
def as_node_mut : StringOSMObj → Option StringNode
  | .Node n => some n
  | _ => none

/-- `OSMObj::as_way_mut` (string_types.rs:263-269). -/
def as_way_mut : StringOSMObj → Option StringWay
  | .Way w => some w
  | _ => none

/-- `OSMObj::as_relation_mut` (string_types.rs:271-277). -/
def as_relation_mut : StringOSMObj → Option StringRelation
  | .Relation r => some r
  | _ => none

/-- Dispatching getter `uid` (string_types.rs:136-138, via `func_call_inner_get!`). -/
def uid : StringOSMObj → Option Nat
  | .Node x => x.uid
  | .Way x => x.uid
  | .Relation x => x.uid

/-- Dispatching getter `user` (string_types.rs:139-141). -/
def user : StringOSMObj → Option String
  | .Node x => x.user
  | .Way x => x.user
  | .Relation x => x.user

/-- Dispatching getter `changeset_id` (string_types.rs:130-132). -/
def changeset_id : StringOSMObj → Option Nat
  | .Node x => x.changeset_id
  | .Way x => x.changeset_id
  | .Relation x => x.changeset_id

/-- Dispatching setter `set_uid` (string_types.rs:158-160). -/
def set_uid : StringOSMObj → Option Nat → StringOSMObj
  | .Node x, v => .Node (x.set_uid v)
  | .Way x, v => .Way (x.set_uid v)
  | .Relation x, v => .Relation (x.set_uid v)

/-- Dispatching setter `set_user` (string_types.rs:161-163). -/
def set_user : StringOSMObj → Option String → StringOSMObj
  | .Node x, v => .Node (x.set_user v)
  | .Way x, v => .Way (x.set_user v)
  | .Relation x, v => .Relation (x.set_user v)

/-- Dispatching setter `set_changeset_id` (string_types.rs:152-154). -/
def set_changeset_id : StringOSMObj → Option Nat → StringOSMObj
  | .Node x, v => .Node (x.set_changeset_id v)
  | .Way x, v => .Way (x.set_changeset_id v)
  | .Relation x, v => .Relation (x.set_changeset_id v)

/-- Dispatching `tag` (string_types.rs:169-175). -/
def tag : StringOSMObj → String → Option String
  | .Node x, k => x.tag k
  | .Way x, k => x.tag k
  | .Relation x, k => x.tag k

/-- Dispatching `set_tag` (string_types.rs:177-183). -/
def set_tag : StringOSMObj → String → String → StringOSMObj
  | .Node x, k, v => .Node (x.set_tag k v)
  | .Way x, k, v => .Way (x.set_tag k v)
  | .Relation x, k, v => .Relation (x.set_tag k v)

/-- The `OSMObjBase::strip_metadata` default method applied to the wrapper
(lib.rs:149-153). -/
def strip_metadata (o : StringOSMObj) : StringOSMObj :=
  ((o.set_uid none).set_user none).set_changeset_id none

end StringOSMObj

/-- `pub enum OSMWriteError` (lib.rs:356-364); the payloads of the last three
constructors are external I/O and XML error values, carried opaquely as `Unit`. -/
inductive OSMWriteError : Type
  | FormatDoesntSupportHeaders
  | AlreadyStarted
  | AlreadyClosed
  | OPLWrite (e : Unit)
  | XMLWriteXMLError (e : Unit)
  | XMLWriteIOError (e : Unit)

/-- An implementation of the `OSMWriter<W>` trait methods that `from_iter` uses:
`new`, `write_obj` and `close` (lib.rs:373-395).  `St` is the writer type
(`Self`), `W` the underlying sink, `Obj` the object type. -/
structure WriterImpl (St W Obj : Type) : Type where
  new : W → St
  write_obj : St → Obj → Except OSMWriteError St
  close : St → Except OSMWriteError St

/-- An observable call made by `from_iter` on the writer. -/
inductive WriterEvent (Obj : Type) : Type
  | write (o : Obj)
  | close

/-- The loop body and trailing close of `OSMWriter::from_iter` (lib.rs:402-415):
each object is written with `.unwrap()`, then `close` is called with `.unwrap()`.
Returns the list of writer calls performed, and the final writer state, or `none`
if an `.unwrap()` panicked (which aborts the remaining calls). -/
def from_iter_go (impl : WriterImpl St W Obj) (st : St) :
    List Obj → List (WriterEvent Obj) × Option St
  | [] =>
    match impl.close st with
    | .ok st' => ([.close], some st')
    | .error _ => ([.close], none)
  | o :: rest =>
    match impl.write_obj st o with
    | .ok st' =>
      let p := from_iter_go impl st' rest
      (.write o :: p.1, p.2)
    | .error _ => ([.write o], none)

/-- `OSMWriter::from_iter` (lib.rs:402-415): `Self::new(writer)`, write every
object, close. -/
def from_iter (impl : WriterImpl St W Obj) (w : W) (objs : List Obj) :
    List (WriterEvent Obj) × Option St :=
  from_iter_go impl (impl.new w) objs

/-- How many times a call trace invokes `close`. -/
def close_count (evs : List (WriterEvent Obj)) : Nat :=
  (evs.filter fun e => match e with | .close => true | _ => false).length

/-- A writer implementation whose writes always succeed and whose `close` fails:
used to observe `from_iter` on the failing-close path. -/
def writerAlwaysOk : WriterImpl Unit Unit Unit where
  new := fun _ => ()
  write_obj := fun _ _ => .ok ()
  close := fun _ => .error .AlreadyClosed

/-- A writer implementation whose writes always fail: used to observe `from_iter`
on the failing-write path. -/
def writerFailingWrite : WriterImpl Unit Unit Unit where
  new := fun _ => ()
  write_obj := fun _ _ => .error (.OPLWrite ())
  close := fun _ => .ok ()

/-- A writer implementation that counts writes and fails on the second one: used
to observe `from_iter` on a mid-stream write failure after a successful write. -/
def writerSecondWriteFails : WriterImpl Nat Unit Unit where
  new := fun _ => 0
  write_obj := fun st _ => if st = 0 then .ok 1 else .error (.OPLWrite ())
  close := fun st => .ok st

/-- The writer state after the `from_iter` loop has written the objects of the
list one by one, or `none` if some write along the run failed (the `.unwrap()`
panic aborts the loop). -/
def write_all (impl : WriterImpl St W Obj) (st : St) : List Obj → Option St
  | [] => some st
  | o :: rest =>
    match impl.write_obj st o with
    | .ok st' => write_all impl st' rest
    | .error _ => none

/-- `Result::is_ok`. -/
def exceptIsOk : Except ε α → Bool
  | .ok _ => true
  | .error _ => false

/-- Claim C4: each of the nine downcast operations on `StringOSMObj`
(`into_node`/`into_way`/`into_relation`, `as_node`/`as_way`/`as_relation`,
`as_node_mut`/`as_way_mut`/`as_relation_mut`) is total and never panics: it
returns `some` exactly when the wrapper holds the requested kind (i.e. when
`object_type` equals that kind) and `none` otherwise. -/
theorem C4_downcasts_total (o : StringOSMObj) :
    ((o.into_node).isSome ↔ o.object_type = .Node)
    ∧ ((o.into_way).isSome ↔ o.object_type = .Way)
    ∧ ((o.into_relation).isSome ↔ o.object_type = .Relation)
    ∧ ((o.as_node).isSome ↔ o.object_type = .Node)
    ∧ ((o.as_way).isSome ↔ o.object_type = .Way)
    ∧ ((o.as_relation).isSome ↔ o.object_type = .Relation)
    ∧ ((o.as_node_mut).isSome ↔ o.object_type = .Node)
    ∧ ((o.as_way_mut).isSome ↔ o.object_type = .Way)
    ∧ ((o.as_relation_mut).isSome ↔ o.object_type = .Relation) := by
  cases o <;>
    simp [StringOSMObj.into_node, StringOSMObj.into_way, StringOSMObj.into_relation,
      StringOSMObj.as_node, StringOSMObj.as_way, StringOSMObj.as_relation,
      StringOSMObj.as_node_mut, StringOSMObj.as_way_mut, StringOSMObj.as_relation_mut,
      StringOSMObj.object_type]

/-- Claim C5: `strip_metadata` clears uid, username and changeset id together and
changes nothing else: id, version, deleted flag, timestamp, tags and the
kind-specific payload (coordinate, node list, member list) are unchanged; for the
wrapper the held kind is also unchanged. -/
theorem C5_strip_metadata_frame :
    (∀ n : StringNode,
      (n.strip_metadata).uid = none ∧ (n.strip_metadata).user = none
        ∧ (n.strip_metadata).changeset_id = none
        ∧ (n.strip_metadata).id = n.id ∧ (n.strip_metadata).version = n.version
        ∧ (n.strip_metadata).deleted = n.deleted
        ∧ (n.strip_metadata).timestamp = n.timestamp
        ∧ (n.strip_metadata).tags = n.tags
        ∧ (n.strip_metadata).lat_lon = n.lat_lon)
    ∧ (∀ w : StringWay,
      (w.strip_metadata).uid = none ∧ (w.strip_metadata).user = none
        ∧ (w.strip_metadata).changeset_id = none
        ∧ (w.strip_metadata).id = w.id ∧ (w.strip_metadata).version = w.version
        ∧ (w.strip_metadata).deleted = w.deleted
        ∧ (w.strip_metadata).timestamp = w.timestamp
        ∧ (w.strip_metadata).tags = w.tags
        ∧ (w.strip_metadata).nodes = w.nodes)
    ∧ (∀ r : StringRelation,
      (r.strip_metadata).uid = none ∧ (r.strip_metadata).user = none
        ∧ (r.strip_metadata).changeset_id = none
        ∧ (r.strip_metadata).id = r.id ∧ (r.strip_metadata).version = r.version
        ∧ (r.strip_metadata).deleted = r.deleted
        ∧ (r.strip_metadata).timestamp = r.timestamp
        ∧ (r.strip_metadata).tags = r.tags
        ∧ (r.strip_metadata).members = r.members)
    ∧ (∀ o : StringOSMObj,
      (o.strip_metadata).uid = none ∧ (o.strip_metadata).user = none
        ∧ (o.strip_metadata).changeset_id = none
        ∧ (o.strip_metadata).object_type = o.object_type) := by
  refine ⟨fun n => ⟨rfl, rfl, rfl, rfl, rfl, rfl, rfl, rfl, rfl⟩,
    fun w => ⟨rfl, rfl, rfl, rfl, rfl, rfl, rfl, rfl, rfl⟩,
    fun r => ⟨rfl, rfl, rfl, rfl, rfl, rfl, rfl, rfl, rfl⟩,
    fun o => ?_⟩
  cases o <;> exact ⟨rfl, rfl, rfl, rfl⟩

/-- Claim C8: replacing a way's node list or a relation's member list discards the
previous list entirely: after `set_nodes xs` (resp. `set_members xs`) the stored
list equals exactly `xs`, never the old list with `xs` appended. -/
theorem C8_set_lists_replace (w : StringWay) (r : StringRelation)
    (xs : List ObjId) (ms : List Member) :
    (w.set_nodes xs).nodes = xs ∧ (r.set_members ms).members = ms := by
  constructor <;>
    simp [StringWay.set_nodes, StringWay.nodes,
      StringRelation.set_members, StringRelation.members]

/-- Claim C9: constructing an owned entity requires only an id, and every optional
field then defaults to unset/empty: version `None`, deleted `false`, changeset id
`None`, timestamp `None`, uid `None`, username `None`, empty tag mapping, no
coordinate for nodes, empty node list for ways, empty member list for relations. -/
theorem C9_builder_defaults (id : ObjId) :
    ((StringNode.build_with_id id).id = id
      ∧ (StringNode.build_with_id id).version = none
      ∧ (StringNode.build_with_id id).deleted = false
      ∧ (StringNode.build_with_id id).changeset_id = none
      ∧ (StringNode.build_with_id id).timestamp = none
      ∧ (StringNode.build_with_id id).uid = none
      ∧ (StringNode.build_with_id id).user = none
      ∧ (StringNode.build_with_id id).tags = []
      ∧ (StringNode.build_with_id id).lat_lon = none)
    ∧ ((StringWay.build_with_id id).id = id
      ∧ (StringWay.build_with_id id).version = none
      ∧ (StringWay.build_with_id id).deleted = false
      ∧ (StringWay.build_with_id id).changeset_id = none
      ∧ (StringWay.build_with_id id).timestamp = none
      ∧ (StringWay.build_with_id id).uid = none
      ∧ (StringWay.build_with_id id).user = none
      ∧ (StringWay.build_with_id id).tags = []
      ∧ (StringWay.build_with_id id).nodes = [])
    ∧ ((StringRelation.build_with_id id).id = id
      ∧ (StringRelation.build_with_id id).version = none
      ∧ (StringRelation.build_with_id id).deleted = false
      ∧ (StringRelation.build_with_id id).changeset_id = none
      ∧ (StringRelation.build_with_id id).timestamp = none
      ∧ (StringRelation.build_with_id id).uid = none
      ∧ (StringRelation.build_with_id id).user = none
      ∧ (StringRelation.build_with_id id).tags = []
      ∧ (StringRelation.build_with_id id).members = []) :=
  ⟨⟨rfl, rfl, rfl, rfl, rfl, rfl, rfl, rfl, rfl⟩,
    ⟨rfl, rfl, rfl, rfl, rfl, rfl, rfl, rfl, rfl⟩,
    ⟨rfl, rfl, rfl, rfl, rfl, rfl, rfl, rfl, rfl⟩⟩

/-- Claim C10: indexed node access on a way is total and in-bounds-exact: `node idx`
returns `some` of the `idx`-th element of `nodes` when `idx < num_nodes`, and
`none` (not a panic) when `idx ≥ num_nodes`. -/
theorem C10_node_access (w : StringWay) (idx : Nat) :
    (∀ h : idx < w.num_nodes, w.node idx = some (w.nodes.get ⟨idx, h⟩))
    ∧ (w.num_nodes ≤ idx → w.node idx = none) := by
  constructor
  · intro h
    simp only [StringWay.num_nodes] at h
    simp [StringWay.node, StringWay.nodes, List.getElem?_eq_getElem h]
  · intro h
    simp only [StringWay.num_nodes] at h
    simp [StringWay.node, List.getElem?_eq_none h]

/-- Witness for C10 at a concrete way: index 1 of `[10, 20, 15]` is in bounds and
yields `20`; index 5 is out of bounds and yields `none`. -/
theorem C10_node_access_witness :
    ((StringWay.build_with_id 1).set_nodes [10, 20, 15]).node 1 =
        some ((((StringWay.build_with_id 1).set_nodes [10, 20, 15]).nodes).get ⟨1, by decide⟩)
    ∧ ((StringWay.build_with_id 1).set_nodes [10, 20, 15]).node 5 = none :=
  ⟨(C10_node_access ((StringWay.build_with_id 1).set_nodes [10, 20, 15]) 1).1 (by decide),
    (C10_node_access ((StringWay.build_with_id 1).set_nodes [10, 20, 15]) 5).2 (by decide)⟩

/-- Counterexample for C6: the string `"rel"` is neither a single-character code
nor a full-word name, yet `FromStr` accepts it (as `Relation`) instead of
yielding an error. -/
theorem C6_counterexample_rel :
    exceptIsOk (OSMObjectType.from_str "rel") = true
    ∧ "rel" ≠ "n" ∧ "rel" ≠ "w" ∧ "rel" ≠ "r"
    ∧ "rel" ≠ "node" ∧ "rel" ≠ "way" ∧ "rel" ≠ "relation" := by
  refine ⟨rfl, ?_, ?_, ?_, ?_, ?_, ?_⟩ <;> decide

/-- Claim C6 (amended): `try_from(c)` succeeds exactly when `c` is one of
`'n'`/`'w'`/`'r'`, yielding the matching kind; the kind's single-character code
and its full-word name both parse back to the same kind via `from_str`; and
`from_str` succeeds exactly on the codes, the full words, and additionally the
abbreviation `"rel"` (for `Relation`) — every other string yields an error, not a
panic. -/
theorem C6_kind_codes_amended :
    (∀ c : Char, exceptIsOk (OSMObjectType.try_from_char c) = true ↔
      (c = 'n' ∨ c = 'w' ∨ c = 'r'))
    ∧ OSMObjectType.try_from_char 'n' = .ok .Node
    ∧ OSMObjectType.try_from_char 'w' = .ok .Way
    ∧ OSMObjectType.try_from_char 'r' = .ok .Relation
    ∧ (∀ t : OSMObjectType, OSMObjectType.from_str t.debug_str = .ok t)
    ∧ (∀ t : OSMObjectType, OSMObjectType.from_str t.display_str = .ok t)
    ∧ (∀ s : String, exceptIsOk (OSMObjectType.from_str s) = true ↔
        (s = "n" ∨ s = "w" ∨ s = "r" ∨ s = "node" ∨ s = "way" ∨ s = "relation" ∨
          s = "rel")) := by
  refine ⟨?_, rfl, rfl, rfl, ?_, ?_, ?_⟩
  · intro c
    unfold OSMObjectType.try_from_char
    by_cases h1 : c = 'n'
    · simp [h1, exceptIsOk]
    · by_cases h2 : c = 'w'
      · simp [h1, h2, exceptIsOk]
      · by_cases h3 : c = 'r'
        · simp [h1, h2, h3, exceptIsOk]
        · simp [h1, h2, h3, exceptIsOk]
  · intro t; cases t <;> rfl
  · intro t; cases t <;> rfl
  · intro s
    unfold OSMObjectType.from_str
    by_cases h1 : s = "n" ∨ s = "node"
    · simp only [h1, if_true, exceptIsOk]
      constructor
      · intro _; tauto
      · intro _; trivial
    · by_cases h2 : s = "w" ∨ s = "way"
      · simp only [h1, h2, if_false, if_true, exceptIsOk]
        constructor
        · intro _; tauto
        · intro _; trivial
      · by_cases h3 : s = "r" ∨ s = "relation" ∨ s = "rel"
        · simp only [h1, h2, h3, if_false, if_true, exceptIsOk]
          constructor
          · intro _; tauto
          · intro _; trivial
        · simp only [h1, h2, h3, if_false, exceptIsOk]
          constructor
          · intro hfalse; exact absurd hfalse (by simp)
          · intro hdisj; tauto

/-- Updating the value at a present key: looking the key up afterwards finds the
new value. -/
theorem tags_get_map_update (m : Tags) (k v : String) :
    (Tags.get m k).isSome = true →
    Tags.get (m.map fun p => if p.1 = k then (p.1, v) else p) k = some v := by
  induction m with
  | nil => intro h; simp [Tags.get] at h
  | cons p rest ih =>
    obtain ⟨k', w⟩ := p
    intro hs
    simp only [List.map_cons]
    by_cases h : k' = k
    · subst h
      rw [show ((if (k', w).1 = k' then ((k', w).1, v) else (k', w)) : String × String) =
        (k', v) from if_pos rfl]
      simp [Tags.get]
    · rw [show ((if (k', w).1 = k then ((k', w).1, v) else (k', w)) : String × String) =
        (k', w) from if_neg h]
      simp only [Tags.get, if_neg h] at hs
      simp only [Tags.get, if_neg h]
      exact ih hs

/-- Appending a binding for an absent key: looking the key up afterwards finds it. -/
theorem tags_get_append (m : Tags) (k v : String) :
    Tags.get m k = none → Tags.get (m ++ [(k, v)]) k = some v := by
  induction m with
  | nil => intro _; simp [Tags.get]
  | cons p rest ih =>
    obtain ⟨k', w⟩ := p
    by_cases h : k' = k
    · intro hn; simp [Tags.get, h] at hn
    · intro hn
      simp only [Tags.get, if_neg h] at hn
      simpa [Tags.get, h] using ih hn

/-- A key that `Tags.get` does not find is not among the keys. -/
theorem tags_get_none_not_mem (m : Tags) (k : String) :
    Tags.get m k = none → k ∉ m.map Prod.fst := by
  induction m with
  | nil => intro _; simp
  | cons p rest ih =>
    obtain ⟨k', w⟩ := p
    by_cases h : k' = k
    · intro hn; simp [Tags.get, h] at hn
    · intro hn
      simp only [Tags.get, if_neg h] at hn
      simp only [List.map_cons, List.mem_cons]
      rintro (rfl | hmem)
      · exact h rfl
      · exact ih hn hmem

/-- The value-update pass of `Tags.insert` does not change the key list. -/
theorem tags_map_update_keys (m : Tags) (k v : String) :
    (m.map fun p => if p.1 = k then (p.1, v) else p).map Prod.fst = m.map Prod.fst := by
  induction m with
  | nil => rfl
  | cons p rest ih =>
    obtain ⟨k', w⟩ := p
    by_cases h : k' = k <;> simp [h, ih]

/-- Last write wins: after `Tags.insert m k v`, key `k` is bound to `v`. -/
theorem tags_get_insert_self (m : Tags) (k v : String) :
    Tags.get (Tags.insert m k v) k = some v := by
  unfold Tags.insert
  cases h : Tags.get m k with
  | none => simp only [h, Option.isSome_none, Bool.false_eq_true, if_false]
            exact tags_get_append m k v h
  | some w => simp only [h, Option.isSome_some, if_true]
              exact tags_get_map_update m k v (by simp [h])

/-- `Tags.insert` grows the map by at most one binding. -/
theorem tags_insert_length (m : Tags) (k v : String) :
    (Tags.insert m k v).length ≤ m.length + 1 := by
  unfold Tags.insert
  by_cases h : (Tags.get m k).isSome = true <;> simp [h]

/-- `Tags.insert` preserves key uniqueness. -/
theorem tags_insert_wf (m : Tags) (k v : String) (hwf : Tags.WF m) :
    Tags.WF (Tags.insert m k v) := by
  unfold Tags.insert
  cases h : Tags.get m k with
  | none =>
    simp only [h, Option.isSome_none, Bool.false_eq_true, if_false]
    unfold Tags.WF at hwf ⊢
    rw [List.map_append]
    rw [show ([(k, v)].map Prod.fst) = [k] from rfl]
    rw [show (m.map Prod.fst) ++ [k] = (m.map Prod.fst).concat k from
      (List.concat_eq_append _ _).symm]
    exact List.Nodup.concat (tags_get_none_not_mem m k h) hwf
  | some w =>
    simp only [h, Option.isSome_some, if_true]
    unfold Tags.WF at hwf ⊢
    rw [tags_map_update_keys]
    exact hwf

/-- `Tags.remove` preserves key uniqueness. -/
theorem tags_remove_wf (m : Tags) (k : String) (hwf : Tags.WF m) :
    Tags.WF (Tags.remove m k) := by
  unfold Tags.WF at hwf ⊢
  unfold Tags.remove
  exact ((List.filter_sublist m).map Prod.fst).nodup hwf

/-- Claim C7: the tag mapping never contains the same key twice (the empty map is
well-formed and both tag mutations preserve well-formedness), and `set_tag` has
last-write-wins semantics: after `set_tag k v`, `tag k` returns `some v`
regardless of any earlier value for `k`, and the number of tags grows by at most
one. -/
theorem C7_tags_unique_last_write_wins :
    Tags.WF []
    ∧ (∀ (m : Tags) (k v : String), Tags.WF m → Tags.WF (Tags.insert m k v))
    ∧ (∀ (m : Tags) (k : String), Tags.WF m → Tags.WF (Tags.remove m k))
    ∧ (∀ (n : StringNode) (k v : String), (n.set_tag k v).tag k = some v)
    ∧ (∀ (n : StringNode) (k v : String), (n.set_tag k v).num_tags ≤ n.num_tags + 1)
    ∧ (∀ (o : StringOSMObj) (k v : String), (o.set_tag k v).tag k = some v) := by
  refine ⟨List.nodup_nil, fun m k v h => tags_insert_wf m k v h,
    fun m k h => tags_remove_wf m k h,
    fun n k v => tags_get_insert_self n._tags k v,
    fun n k v => tags_insert_length n._tags k v,
    fun o k v => ?_⟩
  cases o with
  | Node x => exact tags_get_insert_self x._tags k v
  | Way x => exact tags_get_insert_self x._tags k v
  | Relation x => exact tags_get_insert_self x._tags k v

/-- Witness for C7: the well-formedness-preservation parts applied to the concrete
one-binding map `[("highway", "primary")]`. -/
theorem C7_tags_witness :
    Tags.WF (Tags.insert [("highway", "primary")] "name" "High Street")
    ∧ Tags.WF (Tags.remove [("highway", "primary")] "highway") :=
  ⟨C7_tags_unique_last_write_wins.2.1 [("highway", "primary")] "name" "High Street"
      (by simp [Tags.WF]),
    C7_tags_unique_last_write_wins.2.2.1 [("highway", "primary")] "highway"
      (by simp [Tags.WF])⟩

/-- When every write succeeds, the `from_iter` loop followed by `close` produces a
trace with exactly one `close` call, whatever `close` itself returns. -/
theorem from_iter_go_close_once (impl : WriterImpl St W Obj)
    (hok : ∀ st o, exceptIsOk (impl.write_obj st o) = true) :
    ∀ (objs : List Obj) (st : St), close_count (from_iter_go impl st objs).1 = 1 := by
  intro objs
  induction objs with
  | nil =>
    intro st
    unfold from_iter_go
    cases h : impl.close st <;> simp [close_count, List.filter]
  | cons o rest ih =>
    intro st
    unfold from_iter_go
    cases h : impl.write_obj st o with
    | ok st' =>
      have := ih st'
      simp only [close_count, List.filter] at this ⊢
      exact this
    | error e =>
      have hc := hok st o
      rw [h] at hc
      simp [exceptIsOk] at hc

/-- Counterexample for C3: with a writer whose `write_obj` fails, `from_iter` of a
one-element iterator panics on the `.unwrap()` of the failed write and `close` is
never invoked — not invoked exactly once as claimed. -/
theorem C3_counterexample_write_fails :
    ¬ (close_count (from_iter writerFailingWrite () [()]).1 = 1) := by decide

/-- `write_all` over an appended list runs the first part, then the second part
from the state the first part reached (and aborts if the first part aborted). -/
theorem write_all_append (impl : WriterImpl St W Obj) :
    ∀ (xs ys : List Obj) (st : St),
    write_all impl st (xs ++ ys) =
      match write_all impl st xs with
      | some st' => write_all impl st' ys
      | none => none := by
  intro xs
  induction xs with
  | nil => intro ys st; rfl
  | cons o rest ih =>
    intro ys st
    cases h : impl.write_obj st o with
    | ok st' =>
      have hL : write_all impl st ((o :: rest) ++ ys) = write_all impl st' (rest ++ ys) := by
        show (match impl.write_obj st o with
          | .ok s2 => write_all impl s2 (rest ++ ys)
          | .error _ => none) = write_all impl st' (rest ++ ys)
        rw [h]
      have hR : write_all impl st (o :: rest) = write_all impl st' rest := by
        show (match impl.write_obj st o with
          | .ok s2 => write_all impl s2 rest
          | .error _ => none) = write_all impl st' rest
        rw [h]
      rw [hL, hR, ih ys st']
    | error e =>
      have hL : write_all impl st ((o :: rest) ++ ys) = none := by
        show (match impl.write_obj st o with
          | .ok s2 => write_all impl s2 (rest ++ ys)
          | .error _ => none) = none
        rw [h]
      have hR : write_all impl st (o :: rest) = none := by
        show (match impl.write_obj st o with
          | .ok s2 => write_all impl s2 rest
          | .error _ => none) = none
        rw [h]
      rw [hL, hR]

/-- Full characterization of the close calls of the `from_iter` loop: the trace
contains exactly one `close` call when every write of the run succeeds, and none
at all when some write of the run fails. -/
theorem from_iter_go_close_char (impl : WriterImpl St W Obj) :
    ∀ (objs : List Obj) (st : St),
    close_count (from_iter_go impl st objs).1 =
      if (write_all impl st objs).isSome = true then 1 else 0 := by
  intro objs
  induction objs with
  | nil =>
    intro st
    have hc : (write_all impl st ([] : List Obj)).isSome = true := rfl
    rw [if_pos hc]
    unfold from_iter_go
    cases h : impl.close st <;> simp [close_count, List.filter]
  | cons o rest ih =>
    intro st
    unfold from_iter_go
    cases h : impl.write_obj st o with
    | ok st' =>
      have hw : write_all impl st (o :: rest) = write_all impl st' rest := by
        show (match impl.write_obj st o with
          | .ok s2 => write_all impl s2 rest
          | .error _ => none) = write_all impl st' rest
        rw [h]
      rw [hw]
      have := ih st'
      simp only [close_count, List.filter] at this ⊢
      exact this
    | error e =>
      have hw : write_all impl st (o :: rest) = none := by
        show (match impl.write_obj st o with
          | .ok s2 => write_all impl s2 rest
          | .error _ => none) = none
        rw [h]
      rw [hw]
      simp [close_count, List.filter]

/-- Claim C3 (amended): `OSMWriter::from_iter` invokes `close` exactly once when
every write of the run succeeds (even if `close` itself fails, it is still
invoked once before the `.unwrap()` panic); and whenever any write of the run
fails — the first one or one after any number of successful writes — `from_iter`
panics on that write's `.unwrap()` and `close` is never invoked.  The first
conjunct is the full characterization: the number of `close` calls is one
exactly when every write of the run succeeded, and zero otherwise. -/
theorem C3_from_iter_close (impl : WriterImpl St W Obj) (w : W) (objs : List Obj) :
    (close_count (from_iter impl w objs).1 =
      if (write_all impl (impl.new w) objs).isSome = true then 1 else 0)
    ∧ ((∀ st o, exceptIsOk (impl.write_obj st o) = true) →
        close_count (from_iter impl w objs).1 = 1)
    ∧ (∀ (xs : List Obj) (o : Obj) (rest : List Obj) (st' : St),
        write_all impl (impl.new w) xs = some st' →
        exceptIsOk (impl.write_obj st' o) = false →
        close_count (from_iter impl w (xs ++ o :: rest)).1 = 0) := by
  refine ⟨from_iter_go_close_char impl objs (impl.new w), ?_, ?_⟩
  · intro hok
    exact from_iter_go_close_once impl hok objs (impl.new w)
  · intro xs o rest st' hxs hfail
    have hchar := from_iter_go_close_char impl (xs ++ o :: rest) (impl.new w)
    have happ : write_all impl (impl.new w) (xs ++ o :: rest) =
        write_all impl st' (o :: rest) := by
      rw [write_all_append impl xs (o :: rest) (impl.new w), hxs]
    have hnone : write_all impl st' (o :: rest) = none := by
      show (match impl.write_obj st' o with
        | .ok s2 => write_all impl s2 rest
        | .error _ => none) = none
      cases h : impl.write_obj st' o with
      | ok s2 => rw [h] at hfail; simp [exceptIsOk] at hfail
      | error e => rfl
    rw [happ, hnone] at hchar
    show close_count (from_iter_go impl (impl.new w) (xs ++ o :: rest)).1 = 0
    simpa using hchar

/-- Witness for C3: a writer with succeeding writes and failing close still closes
exactly once on a two-element iterator; a writer whose first write fails never
closes; a writer whose second write fails (after a successful first write) never
closes either. -/
theorem C3_from_iter_close_witness :
    close_count (from_iter writerAlwaysOk () [(), ()]).1 = 1
    ∧ close_count (from_iter writerFailingWrite () ([] ++ () :: [])).1 = 0
    ∧ close_count (from_iter writerSecondWriteFails () ([()] ++ () :: [])).1 = 0 :=
  ⟨(C3_from_iter_close writerAlwaysOk () [(), ()]).2.1 (fun _ _ => rfl),
    (C3_from_iter_close writerFailingWrite () []).2.2 [] () [] () rfl rfl,
    (C3_from_iter_close writerSecondWriteFails () []).2.2 [()] () [] 1 rfl rfl⟩

/-- Every year has 365 or 366 days. -/
theorem daysInYear_bounds (y : Int) :
    365 ≤ SpecModel.daysInYear y ∧ SpecModel.daysInYear y ≤ 366 := by
  unfold SpecModel.daysInYear
  by_cases h : SpecModel.isLeap y = true
  · rw [if_pos h]; omega
  · rw [if_neg h]; omega

/-- `yearStart` advances by exactly one year length. -/
theorem yearStart_succ (y : Int) :
    SpecModel.yearStart (y + 1) = SpecModel.yearStart y + SpecModel.daysInYear y := by
  unfold SpecModel.yearStart
  by_cases h : 1970 ≤ y
  · rw [if_pos (by omega), if_pos h]
    obtain ⟨n, hn⟩ : ∃ n : Nat, y - 1970 = n := ⟨(y - 1970).toNat, by omega⟩
    have h1 : (y + 1 - 1970).toNat = n + 1 := by omega
    have h2 : (y - 1970).toNat = n := by omega
    rw [h1, h2]
    show SpecModel.daysUpFrom1970 n + SpecModel.daysInYear (1970 + n) =
      SpecModel.daysUpFrom1970 n + SpecModel.daysInYear y
    have h3 : (1970 : Int) + n = y := by omega
    rw [h3]
  · by_cases h' : y = 1969
    · subst h'
      decide
    · rw [if_neg (by omega), if_neg h]
      obtain ⟨n, hn⟩ : ∃ n : Nat, 1969 - y = n := ⟨(1969 - y).toNat, by omega⟩
      have h1 : (1970 - (y + 1)).toNat = n := by omega
      have h2 : (1970 - y).toNat = n + 1 := by omega
      rw [h1, h2]
      show SpecModel.daysDownFrom1970 n =
        SpecModel.daysDownFrom1970 n - SpecModel.daysInYear (1969 - (n : Int)) +
          SpecModel.daysInYear y
      have h3 : (1969 : Int) - n = y := by omega
      rw [h3]
      ring

/-- `yearStart` is monotone. -/
theorem yearStart_mono (a b : Int) (hab : a ≤ b) :
    SpecModel.yearStart a ≤ SpecModel.yearStart b := by
  obtain ⟨k, hk⟩ : ∃ k : Nat, b = a + k := ⟨(b - a).toNat, by omega⟩
  subst hk
  clear hab
  induction k with
  | zero => simp
  | succ k ih =>
    have h1 : a + ((k + 1 : Nat) : Int) = a + (k : Int) + 1 := by push_cast; ring
    rw [h1, yearStart_succ]
    have := (daysInYear_bounds (a + (k : Int))).1
    omega

set_option maxRecDepth 8000 in
/-- Concrete value: 1901-01-01 is 25202 days before the epoch. -/
theorem yearStart_1901 : SpecModel.yearStart 1901 = -25202 := by decide

set_option maxRecDepth 8000 in
/-- Concrete value: 2039-01-01 is 25202 days after the epoch. -/
theorem yearStart_2039 : SpecModel.yearStart 2039 = 25202 := by decide

/-- Concrete value: the epoch year starts at day 0. -/
theorem yearStart_1970 : SpecModel.yearStart 1970 = 0 := by decide

/-- The year walk preserves the absolute day number. -/
theorem yearOf_invariant (fuel : Nat) : ∀ (y d : Int),
    SpecModel.yearStart (SpecModel.yearOf fuel y d).1 + (SpecModel.yearOf fuel y d).2 =
      SpecModel.yearStart y + d := by
  induction fuel with
  | zero => intro y d; rfl
  | succ fuel ih =>
    intro y d
    unfold SpecModel.yearOf
    by_cases h1 : d < 0
    · rw [if_pos h1]
      have hrec := ih (y - 1) (d + SpecModel.daysInYear (y - 1))
      have hs := yearStart_succ (y - 1)
      have hy : y - 1 + 1 = y := by ring
      rw [hy] at hs
      omega
    · rw [if_neg h1]
      by_cases h2 : SpecModel.daysInYear y ≤ d
      · rw [if_pos h2]
        have hrec := ih (y + 1) (d - SpecModel.daysInYear y)
        have hs := yearStart_succ y
        omega
      · rw [if_neg h2]

/-- With enough fuel (or already inside the year), the year walk ends on a
0-based day offset inside the final year. -/
theorem yearOf_in_range (fuel : Nat) : ∀ (y d : Int),
    (d.natAbs ≤ 365 * fuel ∨ (0 ≤ d ∧ d < SpecModel.daysInYear y)) →
    0 ≤ (SpecModel.yearOf fuel y d).2 ∧
      (SpecModel.yearOf fuel y d).2 < SpecModel.daysInYear (SpecModel.yearOf fuel y d).1 := by
  induction fuel with
  | zero =>
    intro y d hd
    have hb := daysInYear_bounds y
    show 0 ≤ d ∧ d < SpecModel.daysInYear y
    rcases hd with h | h
    · constructor <;> omega
    · exact h
  | succ fuel ih =>
    intro y d hd
    unfold SpecModel.yearOf
    by_cases h1 : d < 0
    · rw [if_pos h1]
      apply ih
      have hb := daysInYear_bounds (y - 1)
      rcases hd with h | h
      · by_cases h2 : d + SpecModel.daysInYear (y - 1) < 0
        · left; omega
        · right; constructor <;> omega
      · omega
    · rw [if_neg h1]
      by_cases h2 : SpecModel.daysInYear y ≤ d
      · rw [if_pos h2]
        apply ih
        left
        have hb := daysInYear_bounds y
        rcases hd with h | h
        · omega
        · omega
      · rw [if_neg h2]
        have hb := daysInYear_bounds y
        refine ⟨?_, ?_⟩
        · show 0 ≤ d
          omega
        · show d < SpecModel.daysInYear y
          omega

/-- The month-length table has twelve entries. -/
theorem monthLengths_length (b : Bool) : (SpecModel.monthLengths b).length = 12 := by
  cases b <;> rfl

/-- The month lengths of a year sum to that year's number of days. -/
theorem monthLengths_sum_daysInYear (y : Int) :
    (SpecModel.monthLengths (SpecModel.isLeap y)).sum = SpecModel.daysInYear y := by
  unfold SpecModel.daysInYear
  cases h : SpecModel.isLeap y <;> decide

/-- Every month is at most 31 days long. -/
theorem monthLengths_get_le (b : Bool) (i : Nat) (h : i < (SpecModel.monthLengths b).length) :
    (SpecModel.monthLengths b).get ⟨i, h⟩ ≤ 31 := by
  have hall : ∀ x ∈ SpecModel.monthLengths b, x ≤ 31 := by cases b <;> decide
  exact hall _ (List.get_mem _ _ _)

/-- Correctness of `splitMonth`: it decomposes a day-of-year inside the table's
total into the sum of the lengths of the preceding months plus an in-month
offset. -/
theorem splitMonth_spec : ∀ (ls : List Int) (d : Int), 0 ≤ d → d < ls.sum →
    ((ls.take (SpecModel.splitMonth ls d).1).sum + (SpecModel.splitMonth ls d).2 = d)
    ∧ (SpecModel.splitMonth ls d).1 < ls.length
    ∧ 0 ≤ (SpecModel.splitMonth ls d).2
    ∧ ∀ (h : (SpecModel.splitMonth ls d).1 < ls.length),
        (SpecModel.splitMonth ls d).2 < ls.get ⟨(SpecModel.splitMonth ls d).1, h⟩ := by
  intro ls
  induction ls with
  | nil =>
    intro d h0 hlt
    simp only [List.sum_nil] at hlt
    omega
  | cons len rest ih =>
    intro d h0 hlt
    by_cases h : d < len
    · have he : SpecModel.splitMonth (len :: rest) d = (0, d) := by
        conv_lhs => unfold SpecModel.splitMonth
        rw [if_pos h]
      rw [he]
      refine ⟨by simp, by simp, h0, ?_⟩
      intro hh
      simpa using h
    · have he : SpecModel.splitMonth (len :: rest) d =
          ((SpecModel.splitMonth rest (d - len)).1 + 1,
            (SpecModel.splitMonth rest (d - len)).2) := by
        conv_lhs => unfold SpecModel.splitMonth
        rw [if_neg h]
      rw [he]
      have hlt' : d - len < rest.sum := by
        simp only [List.sum_cons] at hlt
        omega
      have hrec := ih (d - len) (by omega) hlt'
      refine ⟨?_, ?_, hrec.2.2.1, ?_⟩
      · show (List.take ((SpecModel.splitMonth rest (d - len)).1 + 1) (len :: rest)).sum +
          (SpecModel.splitMonth rest (d - len)).2 = d
        rw [List.take_succ_cons, List.sum_cons]
        omega
      · show (SpecModel.splitMonth rest (d - len)).1 + 1 < (len :: rest).length
        simp only [List.length_cons]
        omega
      · intro hh
        have hh2 : (SpecModel.splitMonth rest (d - len)).1 + 1 < (len :: rest).length := hh
        have hh' : (SpecModel.splitMonth rest (d - len)).1 < rest.length := by
          simp only [List.length_cons] at hh2
          omega
        exact hrec.2.2.2 hh'

/-- Digit characters round-trip through their numeric value. -/
theorem digit_roundtrip (n : Int) (h1 : 0 ≤ n) (h2 : n < 10) :
    SpecModel.digitVal (SpecModel.digitChar n) = n
    ∧ SpecModel.isDigit (SpecModel.digitChar n) = true := by
  obtain ⟨k, hk⟩ : ∃ k : Nat, n = (k : Int) := ⟨n.toNat, by omega⟩
  subst hk
  have hk10 : k < 10 := by omega
  have hc : (Char.ofNat (48 + k)).toNat = 48 + k := by interval_cases k <;> decide
  unfold SpecModel.digitVal SpecModel.digitChar SpecModel.isDigit
  have ht : ((k : Int)).toNat = k := by omega
  rw [ht, hc]
  refine ⟨by omega, ?_⟩
  simp only [Bool.and_eq_true, decide_eq_true_eq]
  omega

/-- `pad2`-digit characters re-parse to the rendered value, for values below 100. -/
theorem parse2_pad2 (n : Int) (h1 : 0 ≤ n) (h2 : n < 100) :
    SpecModel.parse2 (SpecModel.digitChar (n / 10)) (SpecModel.digitChar (n % 10)) = n
    ∧ SpecModel.digits2 (SpecModel.digitChar (n / 10)) (SpecModel.digitChar (n % 10)) = true := by
  have hA := digit_roundtrip (n / 10) (by omega) (by omega)
  have hB := digit_roundtrip (n % 10) (by omega) (by omega)
  unfold SpecModel.parse2 SpecModel.digits2
  rw [hA.1, hB.1, hA.2, hB.2]
  exact ⟨by omega, rfl⟩

/-- `pad4`-digit characters re-parse to the rendered value, for values below 10000. -/
theorem parse4_pad4 (n : Int) (h1 : 0 ≤ n) (h2 : n < 10000) :
    SpecModel.parse4 (SpecModel.digitChar (n / 1000)) (SpecModel.digitChar ((n / 100) % 10))
      (SpecModel.digitChar ((n / 10) % 10)) (SpecModel.digitChar (n % 10)) = n
    ∧ SpecModel.digits2 (SpecModel.digitChar (n / 1000))
        (SpecModel.digitChar ((n / 100) % 10)) = true
    ∧ SpecModel.digits2 (SpecModel.digitChar ((n / 10) % 10))
        (SpecModel.digitChar (n % 10)) = true := by
  have hA := digit_roundtrip (n / 1000) (by omega) (by omega)
  have hB := digit_roundtrip ((n / 100) % 10) (by omega) (by omega)
  have hC := digit_roundtrip ((n / 10) % 10) (by omega) (by omega)
  have hD := digit_roundtrip (n % 10) (by omega) (by omega)
  unfold SpecModel.parse4 SpecModel.digits2
  rw [hA.1, hB.1, hC.1, hD.1, hA.2, hB.2, hC.2, hD.2]
  exact ⟨by omega, rfl, rfl⟩

/-- Parsing the formatted ISO string of in-range date/time fields recovers the
fields and recombines them through `days_from_civil`. -/
theorem iso_parse_format (y m dom hr mi se : Int)
    (hy1 : 0 ≤ y) (hy2 : y < 10000)
    (hm1 : 0 ≤ m) (hm2 : m < 100)
    (hd1 : 0 ≤ dom) (hd2 : dom < 100)
    (hh1 : 0 ≤ hr) (hh2 : hr < 100)
    (hmi1 : 0 ≤ mi) (hmi2 : mi < 100)
    (hs1 : 0 ≤ se) (hs2 : se < 100) :
    SpecModel.iso_to_epoch_opt (String.mk
      (SpecModel.pad4 y ++ '-' :: SpecModel.pad2 m ++ '-' :: SpecModel.pad2 dom ++
        'T' :: SpecModel.pad2 hr ++ ':' :: SpecModel.pad2 mi ++ ':' :: SpecModel.pad2 se ++
        ['Z'])) =
      some (SpecModel.days_from_civil y m dom * 86400 + hr * 3600 + mi * 60 + se) := by
  have h4 := parse4_pad4 y hy1 hy2
  have hm := parse2_pad2 m hm1 hm2
  have hdm := parse2_pad2 dom hd1 hd2
  have hhr := parse2_pad2 hr hh1 hh2
  have hmi' := parse2_pad2 mi hmi1 hmi2
  have hse := parse2_pad2 se hs1 hs2
  unfold SpecModel.pad4 SpecModel.pad2
  simp only [List.cons_append, List.nil_append]
  simp only [SpecModel.iso_to_epoch_opt]
  rw [h4.2.1, h4.2.2, hm.2, hdm.2, hhr.2, hmi'.2, hse.2]
  simp only [Bool.and_self, if_true]
  simp only [SpecModel.parse_offset]
  rw [h4.1, hm.1, hdm.1, hhr.1, hmi'.1, hse.1]
  ring_nf

/-- The modelled conversions are mutually inverse on every `i32` epoch value:
parsing the formatted ISO string of `e` yields `e` again. -/
theorem epoch_roundtrip (e : Int) (h1 : -(2 ^ 31) ≤ e) (h2 : e < 2 ^ 31) :
    SpecModel.iso_to_epoch (SpecModel.epoch_to_iso e) = e := by
  unfold SpecModel.iso_to_epoch SpecModel.epoch_to_iso SpecModel.formatDate
  have hinv := yearOf_invariant 200 1970 (e / 86400)
  have hrange := yearOf_in_range 200 1970 (e / 86400) (Or.inl (by omega))
  generalize hYD : SpecModel.yearOf 200 1970 (e / 86400) = yd at hinv hrange ⊢
  obtain ⟨yr, doy⟩ := yd
  dsimp only at hinv hrange ⊢
  rw [yearStart_1970] at hinv
  have hb := daysInYear_bounds yr
  have hylo : 1901 ≤ yr := by
    by_contra hc
    push_neg at hc
    have hmono := yearStart_mono (yr + 1) 1901 (by omega)
    have hsucc := yearStart_succ yr
    have h01 := yearStart_1901
    omega
  have hyhi : yr ≤ 2038 := by
    by_contra hc
    push_neg at hc
    have hmono := yearStart_mono 2039 yr (by omega)
    have h39 := yearStart_2039
    omega
  have hsum := monthLengths_sum_daysInYear yr
  have hsplit := splitMonth_spec (SpecModel.monthLengths (SpecModel.isLeap yr)) doy
    hrange.1 (by rw [hsum]; exact hrange.2)
  generalize hMD : SpecModel.splitMonth (SpecModel.monthLengths (SpecModel.isLeap yr)) doy =
    md at hsplit ⊢
  obtain ⟨m, dom⟩ := md
  dsimp only at hsplit ⊢
  have hlen := monthLengths_length (SpecModel.isLeap yr)
  have hm12 : m < 12 := by omega
  have hget := monthLengths_get_le (SpecModel.isLeap yr) m hsplit.2.1
  have hdomget := hsplit.2.2.2 hsplit.2.1
  rw [iso_parse_format yr ((m : Int) + 1) (dom + 1) (e % 86400 / 3600) (e % 86400 / 60 % 60)
    (e % 86400 % 60) (by omega) (by omega) (by omega) (by omega) (by omega) (by omega)
    (by omega) (by omega) (by omega) (by omega) (by omega) (by omega)]
  rw [Option.getD_some]
  have hdc : SpecModel.days_from_civil yr ((m : Int) + 1) (dom + 1) =
      SpecModel.yearStart yr + ((SpecModel.monthLengths (SpecModel.isLeap yr)).take m).sum +
        dom := by
    unfold SpecModel.days_from_civil
    have ht : (((m : Int) + 1) - 1).toNat = m := by omega
    rw [ht]
    ring
  rw [hdc]
  have htake := hsplit.1
  omega

/-- Claim C2 (amended): the conversion is lossless exactly on the `i32` range:
for every epoch value `e` with `-2^31 ≤ e < 2^31`, `to_epoch_number` of the
ISO-string form produced by `to_iso_string(EpochNunber(e))` equals `e`; likewise
an ISO string whose instant lies in that range keeps denoting the same instant
after converting to the epoch form and back.  (Outside that range the `as i32`
cast in `to_iso_string` wraps the value, so the round trip is not the identity.) -/
theorem C2_timestamp_roundtrip_amended :
    (∀ e : Int, -(2 ^ 31) ≤ e → e < 2 ^ 31 →
      TimestampFormat.to_epoch_number
        (.ISOString (TimestampFormat.to_iso_string (.EpochNunber e))) = e)
    ∧ (∀ (s : String) (v : Int), SpecModel.iso_to_epoch_opt s = some v →
        -(2 ^ 31) ≤ v → v < 2 ^ 31 →
        TimestampFormat.to_epoch_number (.ISOString (TimestampFormat.to_iso_string
          (.EpochNunber (TimestampFormat.to_epoch_number (.ISOString s))))) =
          TimestampFormat.to_epoch_number (.ISOString s)) := by
  constructor
  · intro e h1 h2
    show SpecModel.iso_to_epoch (SpecModel.epoch_to_iso (wrap_i32 e)) = e
    have hw : wrap_i32 e = e := by unfold wrap_i32; omega
    rw [hw]
    exact epoch_roundtrip e h1 h2
  · intro s v hsv h1 h2
    show SpecModel.iso_to_epoch
      (SpecModel.epoch_to_iso (wrap_i32 (SpecModel.iso_to_epoch s))) =
        SpecModel.iso_to_epoch s
    have hv : SpecModel.iso_to_epoch s = v := by
      unfold SpecModel.iso_to_epoch
      rw [hsv]
      rfl
    rw [hv]
    have hw : wrap_i32 v = v := by unfold wrap_i32; omega
    rw [hw]
    exact epoch_roundtrip v h1 h2

set_option maxRecDepth 8000 in
/-- Witness for C2 at concrete inputs: the epoch value of 2020-01-01T00:00:00Z
round-trips in both directions. -/
theorem C2_timestamp_roundtrip_witness :
    TimestampFormat.to_epoch_number
      (.ISOString (TimestampFormat.to_iso_string (.EpochNunber 1577836800))) = 1577836800
    ∧ TimestampFormat.to_epoch_number (.ISOString (TimestampFormat.to_iso_string
        (.EpochNunber (TimestampFormat.to_epoch_number
          (.ISOString "2020-01-01T00:00:00Z"))))) =
        TimestampFormat.to_epoch_number (.ISOString "2020-01-01T00:00:00Z") :=
  ⟨C2_timestamp_roundtrip_amended.1 1577836800 (by decide) (by decide),
    C2_timestamp_roundtrip_amended.2 "2020-01-01T00:00:00Z" 1577836800 (by decide)
      (by decide) (by decide)⟩

set_option maxRecDepth 8000 in
/-- Counterexample for C2: the epoch value `2^31` (a valid `i64` epoch-seconds
value) does not round-trip: the `as i32` cast in `to_iso_string` wraps it to
`-2^31`, so converting to the ISO form and back yields `-2^31`, not `2^31`. -/
theorem C2_counterexample_i32_wrap :
    ¬ (TimestampFormat.to_epoch_number
      (.ISOString (TimestampFormat.to_iso_string (.EpochNunber (2 ^ 31)))) = 2 ^ 31) := by
  decide

set_option maxRecDepth 8000 in
/-- Counterexample for C1: `"2020-01-01T00:00:00Z"` and
`"2020-01-01T00:00:00+00:00"` denote the same instant (equal epoch numbers), yet
the `ISOString`/`ISOString` arms of `PartialEq`/`PartialOrd` compare the strings
themselves, so the two values compare unequal and strictly ordered. -/
theorem C1_counterexample_string_compare :
    TimestampFormat.to_epoch_number (.ISOString "2020-01-01T00:00:00Z") =
      TimestampFormat.to_epoch_number (.ISOString "2020-01-01T00:00:00+00:00")
    ∧ TimestampFormat.eq (.ISOString "2020-01-01T00:00:00Z")
        (.ISOString "2020-01-01T00:00:00+00:00") = false
    ∧ TimestampFormat.partial_cmp (.ISOString "2020-01-01T00:00:00Z")
        (.ISOString "2020-01-01T00:00:00+00:00") ≠ some Ordering.eq := by
  refine ⟨by decide, by decide, by decide⟩

/-- Claim C1 (amended): equality and ordering compare epoch-seconds only for
mixed-form pairs (an ISO string against an epoch number); same-form pairs are
compared componentwise — two ISO strings by string comparison and two epoch
numbers by integer comparison. -/
theorem C1_timestamp_compare_amended :
    (∀ s t : String, TimestampFormat.eq (.ISOString s) (.ISOString t) = true ↔ s = t)
    ∧ (∀ a b : Int, TimestampFormat.eq (.EpochNunber a) (.EpochNunber b) = true ↔ a = b)
    ∧ (∀ (s : String) (b : Int), TimestampFormat.eq (.ISOString s) (.EpochNunber b) = true ↔
        SpecModel.iso_to_epoch s = b)
    ∧ (∀ (a : Int) (t : String), TimestampFormat.eq (.EpochNunber a) (.ISOString t) = true ↔
        a = SpecModel.iso_to_epoch t)
    ∧ (∀ s t : String, TimestampFormat.partial_cmp (.ISOString s) (.ISOString t) =
        some (cmpString s t))
    ∧ (∀ a b : Int, TimestampFormat.partial_cmp (.EpochNunber a) (.EpochNunber b) =
        some (cmpInt a b))
    ∧ (∀ (s : String) (b : Int), TimestampFormat.partial_cmp (.ISOString s) (.EpochNunber b) =
        some (cmpInt (SpecModel.iso_to_epoch s) b))
    ∧ (∀ (a : Int) (t : String), TimestampFormat.partial_cmp (.EpochNunber a) (.ISOString t) =
        some (cmpInt a (SpecModel.iso_to_epoch t))) := by
  refine ⟨?_, ?_, ?_, ?_, fun s t => rfl, fun a b => rfl, fun s b => rfl, fun a t => rfl⟩
  · intro s t
    simp [TimestampFormat.eq]
  · intro a b
    simp [TimestampFormat.eq]
  · intro s b
    simp [TimestampFormat.eq, TimestampFormat.to_epoch_number]
  · intro a t
    simp [TimestampFormat.eq, TimestampFormat.to_epoch_number]

end Osmio

